import Mathlib

/-!
Verification development for the firefly_dashboard repository.

The repository's data-transformation core works on an in-memory pandas
DataFrame whose rows are ledger transactions. We embed that table as a
`List Row` and each operation of `src/firefly_dashboard.py` (and its
near-duplicate `firefly_dashboard copy.py`) as a Lean function over it.
Monetary amounts are embedded as exact rationals (`ℚ`); a missing /
non-numeric amount (pandas `NaN` after `to_numeric(..., errors='coerce')`)
is embedded as `none`, and every summation skips `none` exactly as pandas
skips `NaN`.
-/

/-- A calendar timestamp, embedded at day granularity: the code compares
`df['date'].dt.date` against the selected range and groups by the parsed
date, so year/month/day is the structure every verified operation needs. -/
structure Date where
  year : Nat
  month : Nat
  day : Nat
deriving DecidableEq, Repr

/-- Chronological (lexicographic) order on dates. -/
def Date.le (a b : Date) : Prop :=
  a.year < b.year ∨
    (a.year = b.year ∧ (a.month < b.month ∨ (a.month = b.month ∧ a.day ≤ b.day)))

instance (a b : Date) : Decidable (Date.le a b) := by
  unfold Date.le
  infer_instance

/-- Strict chronological order on dates. -/
def Date.lt (a b : Date) : Prop := Date.le a b ∧ a ≠ b

/-- The month bucket derived at load time
(`df['date'].dt.to_period('M')`): the year-month pair of the date. -/
def Date.monthKey (d : Date) : Nat × Nat := (d.year, d.month)

/-- A normalized transaction row, as produced by `load_data`. -/
structure Row where
  date : Date
  amount : Option ℚ
  category : String
  type : String
  description : String
  month : Nat × Nat
deriving DecidableEq, Repr

/-- A raw CSV row before normalization. `dateStr` is the raw date text.
`amountNum` is the outcome of the pandas numeric coercion of the raw
amount cell (`none` = non-numeric, pandas `NaN`); the coercion itself is
pandas-library behaviour, external to the repository. `category` is
`none` when the CSV cell is missing. -/
structure RawRow where
  dateStr : String
  amountNum : Option ℚ
  category : Option String
  type : String
  description : String
deriving DecidableEq, Repr

/-- Embedding of `parse_date` (src/firefly_dashboard.py lines 10-14): the
external `dateutil.parser.parse` is modelled as a function
`parse : String → Option Date`; the `try/except` returning `pd.NaT` is
exactly the `none` outcome. No exception ever escapes to the caller. -/
def parse_date (parse : String → Option Date) (s : String) : Option Date :=
  parse s

/-- Normalization of a single raw row, following `load_data`
(src/firefly_dashboard.py lines 18-27): rows whose date fails to parse
are dropped (`dropna(subset=['date'])`), the month bucket is derived from
the parsed date, the amount is coerced and replaced by its absolute value
(`pd.to_numeric(...).abs()` maps `NaN` to `NaN`, i.e. `none` to `none`),
and a missing category becomes `"Uncategorized"`. -/
def normalizeRow (parse : String → Option Date) (raw : RawRow) : Option Row :=
  (parse_date parse raw.dateStr).map (fun d =>
    { date := d
      month := Date.monthKey d
      amount := raw.amountNum.map (fun q => |q|)
      category := raw.category.getD "Uncategorized"
      type := raw.type
      description := raw.description })

/-- Embedding of `load_data` (src/firefly_dashboard.py lines 18-27). -/
def load_data (parse : String → Option Date) (raws : List RawRow) : List Row :=
  raws.filterMap (normalizeRow parse)

/-- Sum of the amounts of a list of rows; `none` amounts are skipped, as
pandas `sum` skips `NaN`. -/
def sumAmounts (rows : List Row) : ℚ :=
  (rows.filterMap Row.amount).sum

/-- Mean of the amounts of a list of rows; `none` amounts are skipped both
in the numerator and in the denominator, as pandas `mean` skips `NaN`;
an all-`none`/empty column has mean `NaN`, embedded as `none`. -/
def meanAmount (rows : List Row) : Option ℚ :=
  let xs := rows.filterMap Row.amount
  if xs.length = 0 then none else some (xs.sum / (xs.length : ℚ))

/-- The date-range mask `(df['date'].dt.date >= start) & (... <= end)`. -/
def inRange (s e : Date) (r : Row) : Bool :=
  decide (Date.le s r.date) && decide (Date.le r.date e)

/-- Total of the rows whose category equals `c` (`none` amounts skipped,
as in a pandas group sum). -/
def catSum (rows : List Row) (c : String) : ℚ :=
  sumAmounts (rows.filter (fun r => r.category == c))

/-- Lexicographic comparison of character lists, the order Python uses on
strings (code-point by code-point). -/
def charsLe : List Char → List Char → Bool
  | [], _ => true
  | _ :: _, [] => false
  | a :: as, b :: bs => if a < b then true else if b < a then false else charsLe as bs

/-- Ascending lexicographic order on category labels. -/
def strLe (a b : String) : Prop := charsLe a.toList b.toList = true

instance (a b : String) : Decidable (strLe a b) :=
  inferInstanceAs (Decidable (_ = true))

/-- Strict ascending order on category labels. -/
def strLt (a b : String) : Prop := strLe a b ∧ a ≠ b

/-- The distinct categories of the rows in ascending label order: pandas
`groupby('category', sort=True)` emits one group per distinct key, keys
sorted ascending. -/
def categoriesSorted (rows : List Row) : List String :=
  List.insertionSort strLe ((rows.map Row.category).dedup)

/-- Embedding of `groupby('category')['amount'].sum().reset_index()`:
one `(category, total)` pair per distinct category, keys ascending. -/
def groupByCategory (rows : List Row) : List (String × ℚ) :=
  (categoriesSorted rows).map (fun c => (c, catSum rows c))

/-- The descending-by-amount sort relation used to embed
`sort_values('amount', ascending=False)` and `nlargest`, parameterized by
the amount projection so it covers both pair and triple summary rows. -/
def amtDescRel {α : Type} (amt : α → ℚ) (a b : α) : Prop := amt b ≤ amt a

instance {α : Type} (amt : α → ℚ) : DecidableRel (amtDescRel amt) :=
  fun a b => inferInstanceAs (Decidable (amt b ≤ amt a))

/-- Stable descending sort by amount. This is a faithful model of
`Series.nlargest(n)` with its default `keep='first'`, which pandas
documents as returning the largest values with ties resolved by order of
appearance — on the category-ascending `groupby` output, ascending label
order. The same function also embeds the pie chart's
`sort_values('amount', ascending=False)` (line 79), whose default
`kind='quicksort'` leaves the relative order of equal amounts
unspecified; no theorem below depends on the tie order of that sort. -/
def sortAmtDesc {α : Type} (amt : α → ℚ) (l : List α) : List α :=
  List.insertionSort (amtDescRel amt) l

/-- Strict ordering actually exhibited by the sorted summaries: amounts
strictly descending, or equal amounts with labels strictly ascending. -/
def descTie {α : Type} (amt : α → ℚ) (lab : α → String) (a b : α) : Prop :=
  amt b < amt a ∨ (amt a = amt b ∧ strLt (lab a) (lab b))

/-- Embedding of `create_overview` (src/firefly_dashboard.py lines 90-98):
mask by date range only, then total the `Deposit` and `Withdrawal`
amounts and their difference. -/
def create_overview (df : List Row) (start_date end_date : Date) : ℚ × ℚ × ℚ :=
  let filtered_df := df.filter (inRange start_date end_date)
  let total_income := sumAmounts (filtered_df.filter (fun r => r.type == "Deposit"))
  let total_expenses := sumAmounts (filtered_df.filter (fun r => r.type == "Withdrawal"))
  (total_income, total_expenses, total_income - total_expenses)

/-- The pie chart's filter mask (src/firefly_dashboard.py lines 67-73):
category selected, date in range, type `Withdrawal`. -/
def pieRows (df : List Row) (selected : List String) (s e : Date) : List Row :=
  df.filter (fun r => selected.contains r.category && inRange s e r && r.type == "Withdrawal")

/-- Lines 78-79: group the pie rows by category and sort descending by
amount. Pandas' default `kind='quicksort'` leaves the order of
equal-amount rows unspecified; the embedding picks the stable order, and
the theorems about the pie chart use only membership and totals, never
that tie order. -/
def pieGrouped (df : List Row) (selected : List String) (s e : Date) : List (String × ℚ) :=
  sortAmtDesc Prod.snd (groupByCategory (pieRows df selected s e))

/-- Line 81, the `percentage` column `(amount / total_amount) * 100`. The
amounts are pandas floats: when `total_amount = 0` every group amount is
0 too (all amounts are non-negative), so the division is `0.0/0.0 = NaN`,
embedded as `none`; otherwise the exact rational percentage. -/
def percentageOf (total amt : ℚ) : Option ℚ :=
  if total = 0 then none else some (amt / total * 100)

/-- Line 82, the row filter `percentage >= threshold`. A `NaN` percentage
(`none`) fails every `>=` comparison, as IEEE comparisons with NaN do. -/
def pctGe (threshold : ℚ) : Option ℚ → Bool
  | none => false
  | some p => decide (threshold ≤ p)

/-- The categories the pie chart keeps after the percentage-threshold
filter (line 82). -/
def pieKept (df : List Row) (selected : List String) (s e : Date) (threshold : ℚ) :
    List (String × ℚ) :=
  let grouped := pieGrouped df selected s e
  let total_amount := (grouped.map Prod.snd).sum
  grouped.filter (fun p => pctGe threshold (percentageOf total_amount p.2))

/-- Embedding of `create_expense_pie_chart` (lines 65-87): `None` when the
filtered frame is empty (lines 75-76), otherwise the kept groups that the
pie figure displays. -/
def create_expense_pie_chart (df : List Row) (selected : List String) (s e : Date)
    (threshold : ℚ) : Option (List (String × ℚ)) :=
  if (pieRows df selected s e).isEmpty then none
  else some (pieKept df selected s e threshold)

/-- One point of the daily series: a row of `daily_summary` with its
`Deposit`, `Withdrawal` and `Net` columns. -/
structure DailyPoint where
  date : Date
  income : ℚ
  expense : ℚ
  net : ℚ
deriving DecidableEq, Repr

/-- The distinct dates of the rows in ascending order — the index that
`groupby(['date', 'type']).sum().unstack(...)` produces (groupby sorts
its keys ascending). -/
def datesSorted (rows : List Row) : List Date :=
  List.insertionSort Date.le ((rows.map Row.date).dedup)

/-- The `Deposit` column of `daily_summary` at date `d`: sum of the
deposit amounts on that date, 0 when there are none (`fill_value=0`). -/
def depositSumOn (rows : List Row) (d : Date) : ℚ :=
  sumAmounts (rows.filter (fun r => r.date == d && r.type == "Deposit"))

/-- The `Withdrawal` column of `daily_summary` at date `d`. -/
def withdrawalSumOn (rows : List Row) (d : Date) : ℚ :=
  sumAmounts (rows.filter (fun r => r.date == d && r.type == "Withdrawal"))

/-- Embedding of `create_time_series` (src/firefly_dashboard.py lines
101-121). Line 106 returns `None` on an empty filtered frame. After
`unstack`, the frame has one column per type actually present, so line
110's `daily_summary['Deposit']` (resp. `['Withdrawal']`) raises
`KeyError` when no filtered row has that type; the enclosing `except`
(lines 119-121) reports the error and returns `None`. Otherwise one point
per distinct date, ascending. -/
def create_time_series (df : List Row) (s e : Date) : Option (List DailyPoint) :=
  let filtered_df := df.filter (inRange s e)
  if filtered_df.isEmpty then none
  else if !filtered_df.any (fun r => r.type == "Deposit") then none
  else if !filtered_df.any (fun r => r.type == "Withdrawal") then none
  else some ((datesSorted filtered_df).map (fun d =>
    { date := d
      income := depositSumOn filtered_df d
      expense := withdrawalSumOn filtered_df d
      net := depositSumOn filtered_df d - withdrawalSumOn filtered_df d }))

/-- The rows `get_top_categories` aggregates (src/firefly_dashboard.py
lines 125-135): date range and selected categories, then `Deposit` rows
when `category_type = 'Income'`, `Withdrawal` rows otherwise. -/
def topInput (df : List Row) (category_type : String) (s e : Date)
    (selected : List String) : List Row :=
  let filtered_df := df.filter (fun r => inRange s e r && selected.contains r.category)
  if category_type = "Income" then filtered_df.filter (fun r => r.type == "Deposit")
  else filtered_df.filter (fun r => r.type == "Withdrawal")

/-- Embedding of `get_top_categories` (lines 124-138). Pandas
`Series.nlargest(n)` (default `keep='first'`) on the category-ascending
group sums returns the n largest values sorted descending, resolving
equal values by position, i.e. exactly a stable descending sort followed
by `take n`. -/
def get_top_categories (df : List Row) (category_type : String) (n : Nat)
    (s e : Date) (selected : List String) : List (String × ℚ) :=
  (sortAmtDesc Prod.snd (groupByCategory (topInput df category_type s e selected))).take n

/-- Containment of `needle` as a contiguous sublist of the second list:
true iff `needle` is a prefix of some suffix. -/
def charsContain (needle : List Char) : List Char → Bool
  | [] => needle.isEmpty
  | c :: rest => needle.isPrefixOf (c :: rest) || charsContain needle rest

/-- Case-insensitive literal substring containment of `term` in `s` —
the claim's reading of the search. The program's
`str.contains(search_term, case=False)` (line 287) instead interprets the
term as a regular expression (pandas default `regex=True`); the two
coincide exactly on terms free of regex metacharacters. -/
def containsCI (term s : String) : Bool :=
  charsContain (term.toList.map Char.toLower) (s.toList.map Char.toLower)

/-- The metacharacters of the Python `re` syntax: a pattern containing
none of them is matched purely literally by the regex engine. -/
def regexMetachars : List Char :=
  ['.', '^', '$', '*', '+', '?', '\x7b', '\x7d', '[', ']', '\\', '|', '(', ')']

/-- One pattern character against one text character, for the fragment of
regex patterns made of literal characters and `.`: the metacharacter `.`
matches every character except a newline (no DOTALL flag at line 287),
and a literal character matches itself. -/
def reTokMatch (p x : Char) : Bool :=
  if p == '.' then !(x == '\n') else p == x

/-- Does the pattern match a prefix of the text, character by character
(the modelled fragment has no quantifiers, so pattern positions and text
positions align)? -/
def reMatchAt : List Char → List Char → Bool
  | [], _ => true
  | _ :: _, [] => false
  | p :: ps, x :: xs => reTokMatch p x && reMatchAt ps xs

/-- `re.search` semantics: the pattern matches at some position of the
text. -/
def reSearch (pat : List Char) : List Char → Bool
  | [] => pat.isEmpty
  | x :: xs => reMatchAt pat (x :: xs) || reSearch pat xs

/-- Model of the engine behind `str.contains(search_term, case=False)`
(line 287, pandas default `regex=True`), on the fragment of patterns made
of literal characters and the metacharacter `.`: case-insensitive
regular-expression search (`case=False` sets IGNORECASE, embedded by
folding both strings to lower case). Terms using other metacharacters
(quantifiers, classes, groups) are outside the modelled fragment, and an
invalid regex raises an uncaught error in the program. -/
def containsRegexCI (term s : String) : Bool :=
  reSearch (term.toList.map Char.toLower) (s.toList.map Char.toLower)

/-- A search term none of whose characters (after the case folding the
search applies) is a regex metacharacter: on such terms the regex engine
performs literal substring matching. -/
def isLiteralTerm (term : String) : Bool :=
  (term.toList.map Char.toLower).all (fun c => !(regexMetachars.contains c))

/-- Descending-by-date sort relation for
`sort_values('date', ascending=False)` (line 143). -/
def dateDescRel (a b : Row) : Prop := Date.le b.date a.date

instance (a b : Row) : Decidable (dateDescRel a b) :=
  inferInstanceAs (Decidable (Date.le b.date a.date))

/-- Embedding of `get_transactions` (src/firefly_dashboard.py lines
141-144) together with its two call sites (lines 281-284): `category =
none` embeds the `'All'` branch, where `main` passes the whole category
column and the element-wise self-comparison is true on every row; `some
c` embeds the ordinary branch comparing against the literal `c`. The
result keeps the rows of the requested month, sorted descending by date.
(The column projection to date/description/amount/type drops no row and
is left implicit.) -/
def transactionsPred (category : Option String) (month : Nat × Nat) (r : Row) : Bool :=
  (match category with
   | some c => r.category == c
   | none => true) && r.month == month

/-- The lookup itself: filter by `transactionsPred`, then
`sort_values('date', ascending=False)` (line 143). -/
def get_transactions (df : List Row) (category : Option String) (month : Nat × Nat) :
    List Row :=
  List.insertionSort dateDescRel (df.filter (transactionsPred category month))

/-- The search narrowing applied after `get_transactions` (lines
286-287), parameterized by the external matching engine
`matchFn : term → description → keep`: the program instantiates it with
the pandas/`re` regex engine — `containsRegexCI` on the modelled
fragment, literal `containsCI` only on metacharacter-free terms. -/
def searchTransactions (matchFn : String → String → Bool) (term : String)
    (ts : List Row) : List Row :=
  ts.filter (fun r => matchFn term r.description)

/-- The dashboard's overview call site (line 197): `selected_categories`
is in scope there but not passed to `create_overview`. -/
def dashboard_overview (df : List Row) (selected_categories : List String)
    (s e : Date) : ℚ × ℚ × ℚ :=
  create_overview df s e

/-- The dashboard's time-series call site (line 208): `selected_categories`
is in scope there but not passed to `create_time_series`. -/
def dashboard_time_series (df : List Row) (selected_categories : List String)
    (s e : Date) : Option (List DailyPoint) :=
  create_time_series df s e

/-! Concrete inputs used by the scenario parts of the claims. -/

/-- Start of the Scenario A date range. -/
def janStart : Date := ⟨2024, 1, 1⟩

/-- End of the Scenario A date range. -/
def janEnd : Date := ⟨2024, 1, 31⟩

/-- Scenario A row {2024-01-05, 100, Food, Withdrawal}. -/
def rowW1 : Row :=
  { date := ⟨2024, 1, 5⟩, amount := some 100, category := "Food",
    type := "Withdrawal", description := "groceries", month := (2024, 1) }

/-- Scenario A row {2024-01-10, 50, Food, Withdrawal}. -/
def rowW2 : Row :=
  { date := ⟨2024, 1, 10⟩, amount := some 50, category := "Food",
    type := "Withdrawal", description := "snacks", month := (2024, 1) }

/-- Scenario A row {2024-01-15, 500, Salary, Deposit}. -/
def rowD1 : Row :=
  { date := ⟨2024, 1, 15⟩, amount := some 500, category := "Salary",
    type := "Deposit", description := "salary", month := (2024, 1) }

/-- The three Scenario A rows. -/
def scenarioRows : List Row := [rowW1, rowW2, rowD1]

/-- A row of a type that is neither Deposit nor Withdrawal. -/
def transferRow : Row :=
  { date := ⟨2024, 1, 7⟩, amount := some 40, category := "Moves",
    type := "Transfer", description := "between accounts", month := (2024, 1) }

/-- A withdrawal of amount exactly 0 (e.g. the CSV cell `0.00`): its
category group sums to 0, forcing a zero pie-group total. -/
def zeroRow : Row :=
  { date := ⟨2024, 1, 5⟩, amount := some 0, category := "Food",
    type := "Withdrawal", description := "freebie", month := (2024, 1) }

/-- A withdrawal whose amount cell was non-numeric (`NaN` after coercion):
its group sum is also 0, another way to reach a zero pie total. -/
def nanRow : Row :=
  { date := ⟨2024, 1, 8⟩, amount := none, category := "Fees",
    type := "Withdrawal", description := "mystery fee", month := (2024, 1) }

/-- A row whose description contains no `'.'` character, for the search
counterexample. -/
def searchRow : Row :=
  { date := ⟨2024, 1, 5⟩, amount := none, category := "Food",
    type := "Withdrawal", description := "xyz", month := (2024, 1) }

/-- A stand-in for the external dateutil parser in the Scenario C
instance: it fails exactly on the literal `"not-a-date"`. -/
def demoParse : String → Option Date :=
  fun s => if s = "not-a-date" then none else some ⟨2024, 1, 5⟩

/-- Scenario C raw rows: the Scenario A rows plus one row whose date
string is `"not-a-date"`. -/
def demoRaws : List RawRow :=
  [⟨"2024-01-05", some 100, some "Food", "Withdrawal", "groceries"⟩,
   ⟨"not-a-date", some 50, some "Food", "Withdrawal", "bad"⟩,
   ⟨"2024-01-15", some 500, some "Salary", "Deposit", "salary"⟩,
   ⟨"2024-01-20", none, none, "Deposit", "refund"⟩]

/-! General lemmas about the orders and sorts used by the embedding. -/

theorem Date.le_refl (a : Date) : Date.le a a := by
  unfold Date.le
  omega

theorem Date.le_trans {a b c : Date} (h1 : Date.le a b) (h2 : Date.le b c) :
    Date.le a c := by
  unfold Date.le at *
  omega

theorem Date.le_total (a b : Date) : Date.le a b ∨ Date.le b a := by
  unfold Date.le
  omega

theorem Date.le_antisymm {a b : Date} (h1 : Date.le a b) (h2 : Date.le b a) :
    a = b := by
  obtain ⟨y1, m1, d1⟩ := a
  obtain ⟨y2, m2, d2⟩ := b
  unfold Date.le at h1 h2
  simp only [Date.mk.injEq]
  simp only at h1 h2
  omega

instance : IsTotal Date Date.le := ⟨Date.le_total⟩

instance : IsTrans Date Date.le := ⟨fun _ _ _ => Date.le_trans⟩

theorem charsLe_total : ∀ a b, charsLe a b = true ∨ charsLe b a = true
  | [], _ => Or.inl rfl
  | _ :: _, [] => Or.inr rfl
  | a :: as, b :: bs => by
    by_cases h1 : a < b
    · exact Or.inl (by simp [charsLe, h1])
    · by_cases h2 : b < a
      · exact Or.inr (by simp [charsLe, h1, h2])
      · rcases charsLe_total as bs with h | h
        · exact Or.inl (by simp [charsLe, h1, h2, h])
        · exact Or.inr (by simp [charsLe, h1, h2, h])

theorem charsLe_trans : ∀ a b c, charsLe a b = true → charsLe b c = true →
    charsLe a c = true
  | [], _, _, _, _ => rfl
  | _ :: _, [], _, h1, _ => by simp [charsLe] at h1
  | _ :: _, _ :: _, [], _, h2 => by simp [charsLe] at h2
  | x :: xs, y :: ys, z :: zs, h1, h2 => by
    simp only [charsLe] at h1 h2 ⊢
    by_cases hxy : x < y
    · have hyz : y ≤ z := by
        by_contra hc
        simp [not_le.mp hc, lt_asymm (not_le.mp hc)] at h2
      simp [lt_of_lt_of_le hxy hyz]
    · by_cases hyx : y < x
      · simp [hxy, hyx] at h1
      · have hxy' : x = y := le_antisymm (not_lt.mp hyx) (not_lt.mp hxy)
        subst hxy'
        by_cases hxz : x < z
        · simp [hxz]
        · by_cases hzx : z < x
          · simp [hxz, hzx] at h2
          · simp only [if_neg hxz, if_neg hzx, lt_irrefl, if_false] at h1 h2 ⊢
            exact charsLe_trans xs ys zs h1 h2

theorem charsLe_antisymm : ∀ a b, charsLe a b = true → charsLe b a = true → a = b
  | [], [], _, _ => rfl
  | [], _ :: _, _, h2 => by simp [charsLe] at h2
  | _ :: _, [], h1, _ => by simp [charsLe] at h1
  | x :: xs, y :: ys, h1, h2 => by
    simp only [charsLe] at h1 h2
    by_cases hxy : x < y
    · simp [lt_asymm hxy, hxy] at h2
    · by_cases hyx : y < x
      · simp [hxy, hyx] at h1
      · have hxy' : x = y := le_antisymm (not_lt.mp hyx) (not_lt.mp hxy)
        subst hxy'
        simp only [lt_irrefl, if_false] at h1 h2
        rw [charsLe_antisymm xs ys h1 h2]

instance : IsTotal String strLe := ⟨fun a b => charsLe_total a.toList b.toList⟩

instance : IsTrans String strLe :=
  ⟨fun a b c => charsLe_trans a.toList b.toList c.toList⟩

theorem strLe_antisymm {a b : String} (h1 : strLe a b) (h2 : strLe b a) : a = b := by
  obtain ⟨la⟩ := a
  obtain ⟨lb⟩ := b
  have : la = lb := charsLe_antisymm la lb h1 h2
  rw [this]

instance {α : Type} (amt : α → ℚ) : IsTotal α (amtDescRel amt) :=
  ⟨fun a b => le_total (amt b) (amt a)⟩

instance {α : Type} (amt : α → ℚ) : IsTrans α (amtDescRel amt) :=
  ⟨fun _ _ _ h1 h2 => le_trans h2 h1⟩

instance : IsTotal Row dateDescRel := ⟨fun a b => Date.le_total b.date a.date⟩

instance : IsTrans Row dateDescRel := ⟨fun _ _ _ h1 h2 => Date.le_trans h2 h1⟩

theorem sortAmtDesc_perm {α : Type} (amt : α → ℚ) (l : List α) :
    List.Perm (sortAmtDesc amt l) l :=
  List.perm_insertionSort _ l

theorem sortAmtDesc_sorted {α : Type} (amt : α → ℚ) (l : List α) :
    (sortAmtDesc amt l).Pairwise (amtDescRel amt) :=
  List.sorted_insertionSort _ l

/-- Inserting an element whose label is strictly below every label of a
sorted, `descTie`-ordered list keeps the list `descTie`-ordered: the
elements passed over have strictly larger amounts, and the elements the
inserted one lands before have amounts at most its own, with the label
hypothesis resolving the equal-amount case. -/
theorem pairwise_descTie_orderedInsert {α : Type} (amt : α → ℚ) (lab : α → String)
    (a : α) : ∀ m : List α, m.Pairwise (amtDescRel amt) →
    m.Pairwise (descTie amt lab) → (∀ b ∈ m, strLt (lab a) (lab b)) →
    (m.orderedInsert (amtDescRel amt) a).Pairwise (descTie amt lab)
  | [], _, _, _ => List.pairwise_singleton _ a
  | b :: t, hs, hp, hl => by
    rw [List.orderedInsert]
    by_cases hab : amtDescRel amt a b
    · rw [if_pos hab]
      refine List.pairwise_cons.mpr ⟨?_, hp⟩
      intro c hc
      have hca : amt c ≤ amt a := by
        rcases List.mem_cons.mp hc with h | h
        · exact h ▸ hab
        · exact le_trans ((List.pairwise_cons.mp hs).1 c h) hab
      rcases lt_or_eq_of_le hca with h | h
      · exact Or.inl h
      · exact Or.inr ⟨h.symm, hl c hc⟩
    · rw [if_neg hab]
      have hba : amt a < amt b := lt_of_not_le hab
      refine List.pairwise_cons.mpr ⟨?_, ?_⟩
      · intro c hc
        rcases (List.mem_orderedInsert _).mp hc with h | h
        · exact h ▸ Or.inl hba
        · exact (List.pairwise_cons.mp hp).1 c h
      · exact pairwise_descTie_orderedInsert amt lab a t
          (List.pairwise_cons.mp hs).2 (List.pairwise_cons.mp hp).2
          (fun c hc => hl c (List.mem_cons_of_mem b hc))

/-- Stability of the embedded descending sort: sorting a list whose
labels are strictly ascending by amount (descending) yields a list
ordered by strictly-descending amount with ties strictly ascending in
label — the deterministic order the summaries exhibit. -/
theorem pairwise_descTie_insertionSort {α : Type} (amt : α → ℚ) (lab : α → String) :
    ∀ l : List α, l.Pairwise (fun a b => strLt (lab a) (lab b)) →
    (sortAmtDesc amt l).Pairwise (descTie amt lab)
  | [], _ => List.Pairwise.nil
  | a :: t, h => by
    have h1 := (List.pairwise_cons.mp h).1
    have h2 := (List.pairwise_cons.mp h).2
    show (List.orderedInsert _ a (List.insertionSort _ t)).Pairwise _
    refine pairwise_descTie_orderedInsert amt lab a _ ?_ ?_ ?_
    · exact List.sorted_insertionSort _ t
    · exact pairwise_descTie_insertionSort amt lab t h2
    · intro b hb
      exact h1 b ((List.perm_insertionSort _ t).subset hb)

theorem categoriesSorted_nodup (rows : List Row) : (categoriesSorted rows).Nodup :=
  ((List.perm_insertionSort _ _).nodup_iff).mpr (List.nodup_dedup _)

theorem categoriesSorted_sorted (rows : List Row) :
    (categoriesSorted rows).Pairwise strLe :=
  List.sorted_insertionSort _ _

theorem categoriesSorted_pairwise_strLt (rows : List Row) :
    (categoriesSorted rows).Pairwise strLt :=
  ((categoriesSorted_sorted rows).and (categoriesSorted_nodup rows)).imp
    (fun h => ⟨h.1, h.2⟩)

theorem mem_categoriesSorted {rows : List Row} {c : String} :
    c ∈ categoriesSorted rows ↔ c ∈ rows.map Row.category := by
  rw [categoriesSorted]
  rw [(List.perm_insertionSort _ _).mem_iff]
  exact List.mem_dedup

/-- The `(category, total)` groups, after the stable descending sort, are
ordered by strictly-descending amount with label-ascending ties. -/
theorem pairwise_descTie_groups (rows : List Row) :
    (sortAmtDesc Prod.snd (groupByCategory rows)).Pairwise
      (descTie Prod.snd Prod.fst) := by
  apply pairwise_descTie_insertionSort
  rw [groupByCategory]
  exact (List.pairwise_map).mpr
    ((categoriesSorted_pairwise_strLt rows).imp (fun h => h))

theorem datesSorted_nodup (rows : List Row) : (datesSorted rows).Nodup :=
  ((List.perm_insertionSort _ _).nodup_iff).mpr (List.nodup_dedup _)

theorem datesSorted_sorted (rows : List Row) :
    (datesSorted rows).Pairwise Date.le :=
  List.sorted_insertionSort _ _

theorem datesSorted_pairwise_lt (rows : List Row) :
    (datesSorted rows).Pairwise Date.lt :=
  ((datesSorted_sorted rows).and (datesSorted_nodup rows)).imp (fun h => ⟨h.1, h.2⟩)

theorem mem_datesSorted {rows : List Row} {d : Date} :
    d ∈ datesSorted rows ↔ d ∈ rows.map Row.date := by
  rw [datesSorted]
  rw [(List.perm_insertionSort _ _).mem_iff]
  exact List.mem_dedup

theorem reMatchAt_eq_isPrefixOf : ∀ pat s : List Char,
    pat.all (fun c => !(regexMetachars.contains c)) = true →
    reMatchAt pat s = pat.isPrefixOf s
  | [], [], _ => rfl
  | [], _ :: _, _ => rfl
  | _ :: _, [], _ => rfl
  | p :: ps, x :: xs, h => by
    rw [List.all_cons, Bool.and_eq_true] at h
    obtain ⟨hp, hps⟩ := h
    have hdot : (p == '.') = false := by
      rcases hq : (p == '.') with _ | _
      · rfl
      · exfalso
        rw [beq_iff_eq.mp hq] at hp
        simp [regexMetachars] at hp
    show (reTokMatch p x && reMatchAt ps xs) = _
    rw [reTokMatch, if_neg (by simp [hdot]), reMatchAt_eq_isPrefixOf ps xs hps]
    rfl

theorem reSearch_eq_charsContain : ∀ pat s : List Char,
    pat.all (fun c => !(regexMetachars.contains c)) = true →
    reSearch pat s = charsContain pat s
  | _, [], _ => rfl
  | pat, x :: xs, h => by
    show (reMatchAt pat (x :: xs) || reSearch pat xs) = _
    rw [reMatchAt_eq_isPrefixOf pat (x :: xs) h, reSearch_eq_charsContain pat xs h]
    rfl

/-- On metacharacter-free terms the modelled regex engine is exactly
case-insensitive substring containment. -/
theorem containsRegexCI_eq_containsCI {term : String}
    (h : isLiteralTerm term = true) (s : String) :
    containsRegexCI term s = containsCI term s :=
  reSearch_eq_charsContain _ _ h

theorem groupByCategory_fst (rows : List Row) :
    (groupByCategory rows).map Prod.fst = categoriesSorted rows := by
  rw [groupByCategory, List.map_map]
  exact List.map_id _

theorem groupByCategory_nodup_fst (rows : List Row) :
    ((groupByCategory rows).map Prod.fst).Nodup := by
  rw [groupByCategory_fst]
  exact categoriesSorted_nodup rows

theorem mem_groupByCategory {rows : List Row} {p : String × ℚ} :
    p ∈ groupByCategory rows ↔
      p.1 ∈ categoriesSorted rows ∧ p.2 = catSum rows p.1 := by
  rw [groupByCategory, List.mem_map]
  constructor
  · rintro ⟨c, hc, rfl⟩
    exact ⟨hc, rfl⟩
  · rintro ⟨h1, h2⟩
    exact ⟨p.1, h1, by rw [← h2]⟩

/-! The claims. -/

/-- C1: for every normalized table and date range, `create_overview`
returns `(income, expenses, net)` where income sums the amounts of the
`Deposit` rows in range, expenses sums the `Withdrawal` rows in range,
`net = income - expenses`, rows of any other type contribute to neither
sum, and on the Scenario A rows it returns income 500, expense 150,
net 350. -/
theorem create_overview_spec (df : List Row) (s e : Date) :
    create_overview df s e =
      (sumAmounts (df.filter (fun r => inRange s e r && r.type == "Deposit")),
       sumAmounts (df.filter (fun r => inRange s e r && r.type == "Withdrawal")),
       sumAmounts (df.filter (fun r => inRange s e r && r.type == "Deposit")) -
         sumAmounts (df.filter (fun r => inRange s e r && r.type == "Withdrawal"))) ∧
    (create_overview df s e).2.2 =
      (create_overview df s e).1 - (create_overview df s e).2.1 ∧
    (∀ r : Row, r.type ≠ "Deposit" → r.type ≠ "Withdrawal" →
      create_overview (r :: df) s e = create_overview df s e) ∧
    create_overview scenarioRows janStart janEnd = (500, 150, 350) := by
  refine ⟨?_, rfl, ?_, ?_⟩
  · rw [create_overview]
    simp only [List.filter_filter]
    simp only [Bool.and_comm]
  · intro r h1 h2
    have hd : (r.type == "Deposit") = false := beq_eq_false_iff_ne.mpr h1
    have hw : (r.type == "Withdrawal") = false := beq_eq_false_iff_ne.mpr h2
    by_cases hr : inRange s e r = true
    · simp [create_overview, List.filter_cons, hr, hd, hw]
    · simp [create_overview, List.filter_cons, hr]
  · simp [create_overview, sumAmounts, inRange, scenarioRows, rowW1, rowW2, rowD1,
      janStart, janEnd, Date.le, List.filterMap_cons]
    norm_num

/-- C1 witness: a `Transfer` row inside the date range changes nothing in
the overview of the Scenario A table. -/
theorem create_overview_spec_witness :
    create_overview (transferRow :: scenarioRows) janStart janEnd =
      create_overview scenarioRows janStart janEnd :=
  (create_overview_spec scenarioRows janStart janEnd).2.2.1 transferRow
    (by decide) (by decide)

/-- C6: a raw row whose date string fails to parse is dropped silently:
the loaded length plus the number of unparseable-date rows is the raw
length, deleting a bad row anywhere leaves the loaded table unchanged,
and in the Scenario C instance the four raw rows (one with date
`"not-a-date"`) load to exactly three rows. The embedding of `load_data`
is a total function, so no error reaches the caller. -/
theorem load_data_drops_bad_dates :
    (∀ (parse : String → Option Date) (raws : List RawRow),
      (load_data parse raws).length +
        raws.countP (fun r => (parse_date parse r.dateStr).isNone) = raws.length) ∧
    (∀ (parse : String → Option Date) (pre post : List RawRow) (bad : RawRow),
      parse_date parse bad.dateStr = none →
      load_data parse (pre ++ bad :: post) = load_data parse (pre ++ post)) ∧
    (load_data demoParse demoRaws).length = 3 ∧ demoRaws.length = 4 := by
  have hnone : ∀ (parse : String → Option Date) (raw : RawRow),
      normalizeRow parse raw = none ↔ parse_date parse raw.dateStr = none := by
    intro parse raw
    rw [normalizeRow]
    exact Option.map_eq_none'
  refine ⟨?_, ?_, ?_, rfl⟩
  · intro parse raws
    induction raws with
    | nil => simp [load_data]
    | cons a t ih =>
      rw [load_data, List.filterMap_cons, List.countP_cons]
      cases h : normalizeRow parse a with
      | none =>
        have : (parse_date parse a.dateStr).isNone = true :=
          Option.isNone_iff_eq_none.mpr ((hnone parse a).mp h)
        rw [load_data] at ih
        simp [this, ih]
        omega
      | some r =>
        have : (parse_date parse a.dateStr).isNone = false := by
          rcases ho : parse_date parse a.dateStr with _ | d
          · rw [← hnone parse a] at ho
            rw [ho] at h
            exact absurd h (by simp)
          · simp
        rw [load_data] at ih
        simp [this, ih]
        omega
  · intro parse pre post bad hbad
    induction pre with
    | nil =>
      simp only [List.nil_append]
      rw [load_data, List.filterMap_cons, (hnone parse bad).mpr hbad]
      rfl
    | cons a t ih =>
      simp only [List.cons_append, load_data, List.filterMap_cons] at ih ⊢
      simp only [ih]
  · simp [load_data, demoParse, demoRaws, normalizeRow, parse_date]

/-- C6 witness: deleting the Scenario C bad row from a concrete raw list
leaves the loaded table unchanged. -/
theorem load_data_drops_bad_dates_witness :
    load_data demoParse
      ([⟨"2024-01-05", some 100, some "Food", "Withdrawal", "groceries"⟩] ++
        ⟨"not-a-date", some 50, some "Food", "Withdrawal", "bad"⟩ ::
          [⟨"2024-01-15", some 500, some "Salary", "Deposit", "salary"⟩]) =
    load_data demoParse
      ([⟨"2024-01-05", some 100, some "Food", "Withdrawal", "groceries"⟩] ++
        [⟨"2024-01-15", some 500, some "Salary", "Deposit", "salary"⟩]) :=
  load_data_drops_bad_dates.2.1 demoParse _ _ _ (by decide)

/-- C8: after `load_data` every retained row's amount is `none` or a
non-negative rational (the absolute value of the coerced raw amount); a
row with a non-numeric amount is retained with a `none` amount whenever
its date parses; and a `none` amount is skipped by both `sumAmounts` and
`meanAmount` rather than defaulted to zero. -/
theorem load_data_amount_normalization :
    (∀ (parse : String → Option Date) (raws : List RawRow) (r : Row),
      r ∈ load_data parse raws → r.amount = none ∨ ∃ q, 0 ≤ q ∧ r.amount = some q) ∧
    (∀ (parse : String → Option Date) (raw : RawRow) (d : Date),
      parse_date parse raw.dateStr = some d →
      ∃ r, normalizeRow parse raw = some r ∧
        r.amount = raw.amountNum.map (fun q => |q|)) ∧
    (∀ (r : Row) (rows : List Row), r.amount = none →
      sumAmounts (r :: rows) = sumAmounts rows ∧
      meanAmount (r :: rows) = meanAmount rows) := by
  refine ⟨?_, ?_, ?_⟩
  · intro parse raws r hr
    obtain ⟨raw, _, hn⟩ := List.mem_filterMap.mp hr
    rw [normalizeRow] at hn
    rcases ho : parse_date parse raw.dateStr with _ | d
    · rw [ho] at hn
      exact absurd hn (by simp)
    · rw [ho] at hn
      have : r.amount = raw.amountNum.map (fun q => |q|) := by
        simp only [Option.map_some'] at hn
        rw [← Option.some_inj.mp hn]
      rcases ha : raw.amountNum with _ | q
      · left
        rw [this, ha]
        rfl
      · right
        exact ⟨|q|, abs_nonneg q, by rw [this, ha]; rfl⟩
  · intro parse raw d hd
    refine ⟨_, by rw [normalizeRow, hd]; rfl, rfl⟩
  · intro r rows hr
    constructor
    · rw [sumAmounts, sumAmounts, List.filterMap_cons, hr]
    · rw [meanAmount, meanAmount, List.filterMap_cons, hr]

/-- C8 witness: a raw row with a parseable date and the non-numeric... a
negative numeric amount -7 loads to a row carrying `some 7`. -/
theorem load_data_amount_normalization_witness :
    ∃ r, normalizeRow demoParse ⟨"2024-01-05", some (-7), some "Food", "Withdrawal", "x"⟩ =
        some r ∧
      r.amount = (some (-7 : ℚ)).map (fun q => |q|) :=
  load_data_amount_normalization.2.1 demoParse
    ⟨"2024-01-05", some (-7), some "Food", "Withdrawal", "x"⟩ ⟨2024, 1, 5⟩ (by decide)

/-- C10: the overview and the daily time series are invariant under the
selected-categories set — at their dashboard call sites the selection is
in scope but is not an input to either computation, so two runs that
differ only in the selection coincide. -/
theorem dashboard_category_noninterference (df : List Row)
    (cats1 cats2 : List String) (s e : Date) :
    dashboard_overview df cats1 s e = dashboard_overview df cats2 s e ∧
    dashboard_time_series df cats1 s e = dashboard_time_series df cats2 s e :=
  ⟨rfl, rfl⟩

/-- C9 counterexample: the search applies regex semantics, not substring
containment. With search term `"."` the program keeps a row whose
description `"xyz"` does not contain the character `'.'` — the regex
engine (embedded by `containsRegexCI`, faithful on literal-and-dot
patterns) matches `"."` against any non-newline character — while the
claim's case-insensitive-substring reading (`containsCI`) would drop
the row. -/
theorem get_transactions_search_counterexample :
    containsRegexCI "." "xyz" = true ∧
    containsCI "." "xyz" = false ∧
    searchTransactions containsRegexCI "."
      (get_transactions [searchRow] (some "Food") (2024, 1)) = [searchRow] ∧
    searchTransactions containsCI "."
      (get_transactions [searchRow] (some "Food") (2024, 1)) = [] := by
  decide

/-- C9 amended: the transaction lookup returns exactly the rows of the
requested month whose category matches (every category when `'All'`,
i.e. `none`, is requested), ordered descending by date; a search term
narrows the result to the rows whose description the external regex
engine matches against the term — `str.contains` with its default
`regex=True`, not literal substring containment — preserving that order;
and exactly on terms free of regex metacharacters the engine (modelled
by `containsRegexCI`) coincides with case-insensitive substring
containment (`containsCI`), recovering the claim's reading there. -/
theorem get_transactions_spec (df : List Row) (category : Option String)
    (month : Nat × Nat) (matchFn : String → String → Bool) (term : String) :
    List.Perm (get_transactions df category month)
      (df.filter (transactionsPred category month)) ∧
    (∀ r : Row, r ∈ get_transactions df category month ↔
      r ∈ df ∧ transactionsPred category month r = true) ∧
    (get_transactions df category month).Pairwise dateDescRel ∧
    List.Perm (searchTransactions matchFn term (get_transactions df category month))
      (df.filter (fun r =>
        matchFn term r.description && transactionsPred category month r)) ∧
    (searchTransactions matchFn term (get_transactions df category month)).Pairwise
      dateDescRel ∧
    (isLiteralTerm term = true →
      ∀ s : String, containsRegexCI term s = containsCI term s) := by
  refine ⟨List.perm_insertionSort _ _, ?_, List.sorted_insertionSort _ _, ?_, ?_, ?_⟩
  · intro r
    rw [get_transactions, (List.perm_insertionSort _ _).mem_iff, List.mem_filter]
  · have h1 := (List.perm_insertionSort dateDescRel
      (df.filter (transactionsPred category month))).filter
      (fun r => matchFn term r.description)
    rw [searchTransactions, List.filter_filter] at *
    exact h1
  · exact (List.sorted_insertionSort _ _).sublist (List.filter_sublist _)
  · intro h s
    exact containsRegexCI_eq_containsCI h s

/-- C9 witness: the metacharacter-free term `"food"` is matched by the
regex engine exactly as a case-insensitive substring. -/
theorem get_transactions_spec_witness :
    containsRegexCI "food" "Whole Foods" = containsCI "food" "Whole Foods" :=
  (get_transactions_spec [] none (2024, 1) containsRegexCI "food").2.2.2.2.2
    (by decide) "Whole Foods"

/-- Concrete evaluation of the pie grouping on the Scenario A table with
categories Food and Salary selected: the one expense category, Food,
totals 150. -/
theorem pieGrouped_scenario :
    pieGrouped scenarioRows ["Food", "Salary"] janStart janEnd = [("Food", 150)] := by
  simp [pieGrouped, pieRows, groupByCategory, categoriesSorted, catSum, sumAmounts,
    sortAmtDesc, amtDescRel, inRange, scenarioRows, rowW1, rowW2, rowD1, janStart,
    janEnd, Date.le, List.insertionSort, List.orderedInsert, List.filterMap_cons,
    List.dedup_cons_of_mem, List.dedup_cons_of_not_mem]
  norm_num

/-- C3 counterexample: the claim quantifies over every non-empty filtered
expense group, but on a group holding a single zero-amount withdrawal the
group total is 0, the code's percentage is `0.0/0.0 = NaN`, and at
threshold 0 the category is excluded even though its percentage — 0 under
the spec's own treat-as-0 rule — is not below the threshold. -/
theorem pie_threshold_boundary_counterexample :
    ("Food", (0 : ℚ)) ∈ pieGrouped [zeroRow] ["Food"] janStart janEnd ∧
    ("Food", (0 : ℚ)) ∉ pieKept [zeroRow] ["Food"] janStart janEnd 0 := by
  constructor
  · simp [pieGrouped, pieRows, groupByCategory, categoriesSorted, catSum, sumAmounts,
      sortAmtDesc, amtDescRel, inRange, zeroRow, janStart, janEnd, Date.le,
      List.insertionSort, List.orderedInsert, List.filterMap_cons]
  · simp [pieKept, pieGrouped, pieRows, groupByCategory, categoriesSorted, catSum,
      sumAmounts, sortAmtDesc, amtDescRel, inRange, zeroRow, janStart, janEnd,
      Date.le, List.insertionSort, List.orderedInsert, List.filterMap_cons,
      percentageOf, pctGe]

/-- C3 amended: whenever the filtered expense group's total amount is
positive, the percentage-threshold filter keeps exactly the categories
whose percentage of the total is at least the threshold (inclusive
boundary), and every excluded category's percentage is strictly below the
threshold; when the total is zero the code excludes every category (see
the C4 theorem). -/
theorem pie_threshold_filter_spec (df : List Row) (selected : List String)
    (s e : Date) (threshold : ℚ)
    (hpos : 0 < ((pieGrouped df selected s e).map Prod.snd).sum) :
    ∀ p ∈ pieGrouped df selected s e,
      (p ∈ pieKept df selected s e threshold ↔
        threshold ≤ p.2 / ((pieGrouped df selected s e).map Prod.snd).sum * 100) ∧
      (p ∉ pieKept df selected s e threshold →
        p.2 / ((pieGrouped df selected s e).map Prod.snd).sum * 100 < threshold) := by
  intro p hp
  have htot : ((pieGrouped df selected s e).map Prod.snd).sum ≠ 0 := ne_of_gt hpos
  have hkept : pieKept df selected s e threshold =
      (pieGrouped df selected s e).filter
        (fun q => pctGe threshold
          (percentageOf (((pieGrouped df selected s e).map Prod.snd).sum) q.2)) := rfl
  simp only [hkept, List.mem_filter, percentageOf, if_neg htot, pctGe,
    decide_eq_true_eq]
  constructor
  · exact ⟨fun h => h.2, fun h => ⟨hp, h⟩⟩
  · intro hnot
    rcases lt_or_le (p.2 / ((pieGrouped df selected s e).map Prod.snd).sum * 100)
      threshold with h | h
    · exact h
    · exact absurd ⟨hp, h⟩ hnot

/-- C3 witness: on the Scenario A table, Food is 100 percent of the
expense total and is kept at threshold 50. -/
theorem pie_threshold_filter_spec_witness :
    ("Food", (150 : ℚ)) ∈ pieKept scenarioRows ["Food", "Salary"] janStart janEnd 50 :=
  ((pie_threshold_filter_spec scenarioRows ["Food", "Salary"] janStart janEnd 50
      (by rw [pieGrouped_scenario]; norm_num)) ("Food", 150)
      (by rw [pieGrouped_scenario]; exact List.mem_singleton.mpr rfl)).1.mpr
    (by rw [pieGrouped_scenario]; norm_num)

/-- C4 counterexample (Scenario E): a non-empty expense group whose only
row has a null (non-numeric) amount has group total 0; at threshold 0 the
code excludes the category — the pandas percentage is `0.0/0.0 = NaN` and
`NaN >= 0` is false — where the claim says it is included. -/
theorem pie_zero_total_counterexample :
    pieRows [nanRow] ["Fees"] janStart janEnd ≠ [] ∧
    pieGrouped [nanRow] ["Fees"] janStart janEnd = [("Fees", 0)] ∧
    pieKept [nanRow] ["Fees"] janStart janEnd 0 = [] := by
  refine ⟨?_, ?_, ?_⟩
  · simp [pieRows, inRange, nanRow, janStart, janEnd, Date.le]
  · simp [pieGrouped, pieRows, groupByCategory, categoriesSorted, catSum, sumAmounts,
      sortAmtDesc, amtDescRel, inRange, nanRow, janStart, janEnd, Date.le,
      List.insertionSort, List.orderedInsert, List.filterMap_cons]
  · simp [pieKept, pieGrouped, pieRows, groupByCategory, categoriesSorted, catSum,
      sumAmounts, sortAmtDesc, amtDescRel, inRange, nanRow, janStart, janEnd,
      Date.le, List.insertionSort, List.orderedInsert, List.filterMap_cons,
      percentageOf, pctGe]

/-- C4 amended: when the filtered expense group's total amount is zero,
each category's percentage is the undefined `0/0` (pandas `NaN`), which
fails every `>=` comparison, so every category is excluded at every
threshold — including threshold 0. -/
theorem pie_zero_total_excludes_all (df : List Row) (selected : List String)
    (s e : Date) (threshold : ℚ)
    (h0 : ((pieGrouped df selected s e).map Prod.snd).sum = 0) :
    pieKept df selected s e threshold = [] := by
  have hkept : pieKept df selected s e threshold =
      (pieGrouped df selected s e).filter
        (fun q => pctGe threshold
          (percentageOf (((pieGrouped df selected s e).map Prod.snd).sum) q.2)) := rfl
  rw [hkept]
  apply List.filter_eq_nil_iff.mpr
  intro q _
  rw [h0, percentageOf, if_pos rfl]
  simp [pctGe]

/-- C5 counterexample: a non-empty filtered set containing only
withdrawal rows produces no daily series at all — after `unstack` there
is no `Deposit` column, line 110 raises `KeyError`, and the handler
returns `None` — where the claim promises a one-entry series with income
0. -/
theorem create_time_series_missing_type_counterexample :
    [rowW1].filter (inRange janStart janEnd) ≠ [] ∧
    create_time_series [rowW1] janStart janEnd = none := by
  constructor
  · simp [inRange, rowW1, janStart, janEnd, Date.le]
  · simp [create_time_series, inRange, rowW1, janStart, janEnd, Date.le]

/-- C5 amended: whenever the filtered rows contain at least one Deposit
row and at least one Withdrawal row (otherwise the missing unstack column
raises `KeyError` and the function returns `None`), the daily series has
exactly one entry per distinct date present in the filtered rows, in
strictly ascending date order with no duplicate dates, and each entry's
income / expense are that date's Deposit / Withdrawal sums (0 when a date
has none of that type) with net their difference. -/
theorem create_time_series_spec (df : List Row) (s e : Date)
    (hdep : (df.filter (inRange s e)).any (fun r => r.type == "Deposit") = true)
    (hwd : (df.filter (inRange s e)).any (fun r => r.type == "Withdrawal") = true) :
    ∃ pts, create_time_series df s e = some pts ∧
      (∀ p ∈ pts, p.income = depositSumOn (df.filter (inRange s e)) p.date ∧
        p.expense = withdrawalSumOn (df.filter (inRange s e)) p.date ∧
        p.net = p.income - p.expense) ∧
      pts.Pairwise (fun a b => Date.lt a.date b.date) ∧
      (pts.map DailyPoint.date).Nodup ∧
      (∀ d : Date, (∃ p ∈ pts, p.date = d) ↔
        ∃ r ∈ df.filter (inRange s e), r.date = d) := by
  have hne : (df.filter (inRange s e)).isEmpty = false := by
    rcases List.any_eq_true.mp hdep with ⟨r, hr, _⟩
    cases hFc : df.filter (inRange s e) with
    | nil => rw [hFc] at hr; exact absurd hr (List.not_mem_nil r)
    | cons a t => simp [List.isEmpty]
  have hcts : create_time_series df s e =
      some ((datesSorted (df.filter (inRange s e))).map (fun d =>
        { date := d
          income := depositSumOn (df.filter (inRange s e)) d
          expense := withdrawalSumOn (df.filter (inRange s e)) d
          net := depositSumOn (df.filter (inRange s e)) d -
            withdrawalSumOn (df.filter (inRange s e)) d })) := by
    rw [create_time_series]
    simp [hne, hdep, hwd]
  refine ⟨_, hcts, ?_, ?_, ?_, ?_⟩
  · intro p hp
    obtain ⟨d, _, rfl⟩ := List.mem_map.mp hp
    exact ⟨rfl, rfl, rfl⟩
  · exact List.pairwise_map.mpr
      ((datesSorted_pairwise_lt (df.filter (inRange s e))).imp (fun h => h))
  · have hmap : ((datesSorted (df.filter (inRange s e))).map (fun d =>
        ({ date := d
           income := depositSumOn (df.filter (inRange s e)) d
           expense := withdrawalSumOn (df.filter (inRange s e)) d
           net := depositSumOn (df.filter (inRange s e)) d -
             withdrawalSumOn (df.filter (inRange s e)) d } : DailyPoint))).map
          DailyPoint.date = datesSorted (df.filter (inRange s e)) := by
      rw [List.map_map]
      exact List.map_id _
    rw [hmap]
    exact datesSorted_nodup _
  · intro d
    constructor
    · rintro ⟨p, hp, rfl⟩
      obtain ⟨d', hd', rfl⟩ := List.mem_map.mp hp
      exact List.mem_map.mp (mem_datesSorted.mp hd')
    · rintro ⟨r, hr, rfl⟩
      refine ⟨_, List.mem_map.mpr ⟨r.date, ?_, rfl⟩, rfl⟩
      exact mem_datesSorted.mpr (List.mem_map.mpr ⟨r, hr, rfl⟩)

/-- C5 witness: the Scenario A table has both types in range, and its
series satisfies the full amended specification. -/
theorem create_time_series_spec_witness :
    ∃ pts, create_time_series scenarioRows janStart janEnd = some pts ∧
      (∀ p ∈ pts,
        p.income = depositSumOn (scenarioRows.filter (inRange janStart janEnd)) p.date ∧
        p.expense =
          withdrawalSumOn (scenarioRows.filter (inRange janStart janEnd)) p.date ∧
        p.net = p.income - p.expense) ∧
      pts.Pairwise (fun a b => Date.lt a.date b.date) ∧
      (pts.map DailyPoint.date).Nodup ∧
      (∀ d : Date, (∃ p ∈ pts, p.date = d) ↔
        ∃ r ∈ scenarioRows.filter (inRange janStart janEnd), r.date = d) :=
  create_time_series_spec scenarioRows janStart janEnd (by decide) (by decide)

/-- C2: `get_top_categories` returns at most n rows, one per distinct
category of its filtered input, each row carrying that category's summed
amount; the sequence is non-increasing in amount with boundary ties (and
all ties) resolved by ascending category label; when at most n distinct
categories exist, the whole aggregate is returned (as a permutation, with
no error and no padding), so the Scenario B call with n = 5 returns the
single entry (Food, 150). -/
theorem get_top_categories_spec (df : List Row) (category_type : String) (n : Nat)
    (s e : Date) (selected : List String) :
    (get_top_categories df category_type n s e selected).length =
      min n (groupByCategory (topInput df category_type s e selected)).length ∧
    ((get_top_categories df category_type n s e selected).map Prod.fst).Nodup ∧
    (∀ p ∈ get_top_categories df category_type n s e selected,
      p.2 = catSum (topInput df category_type s e selected) p.1) ∧
    (get_top_categories df category_type n s e selected).Pairwise
      (amtDescRel Prod.snd) ∧
    (get_top_categories df category_type n s e selected).Pairwise
      (descTie Prod.snd Prod.fst) ∧
    (∀ p ∈ groupByCategory (topInput df category_type s e selected),
      p ∉ get_top_categories df category_type n s e selected →
      ∀ q ∈ get_top_categories df category_type n s e selected,
        descTie Prod.snd Prod.fst q p) ∧
    ((groupByCategory (topInput df category_type s e selected)).length ≤ n →
      List.Perm (get_top_categories df category_type n s e selected)
        (groupByCategory (topInput df category_type s e selected))) ∧
    get_top_categories scenarioRows "Expenses" 5 janStart janEnd ["Food", "Salary"] =
      [("Food", 150)] := by
  have hperm : List.Perm
      (sortAmtDesc Prod.snd (groupByCategory (topInput df category_type s e selected)))
      (groupByCategory (topInput df category_type s e selected)) :=
    sortAmtDesc_perm _ _
  have htop : get_top_categories df category_type n s e selected =
      (sortAmtDesc Prod.snd
        (groupByCategory (topInput df category_type s e selected))).take n := rfl
  refine ⟨?_, ?_, ?_, ?_, ?_, ?_, ?_, ?_⟩
  · rw [htop, List.length_take, hperm.length_eq]
  · have h1 : ((sortAmtDesc Prod.snd
        (groupByCategory (topInput df category_type s e selected))).map
          Prod.fst).Nodup :=
      (hperm.map Prod.fst).nodup_iff.mpr (groupByCategory_nodup_fst _)
    rw [htop]
    exact h1.sublist ((List.take_sublist n _).map Prod.fst)
  · intro p hp
    rw [htop] at hp
    have hpG : p ∈ groupByCategory (topInput df category_type s e selected) :=
      hperm.subset (List.mem_of_mem_take hp)
    exact (mem_groupByCategory.mp hpG).2
  · rw [htop]
    exact (sortAmtDesc_sorted _ _).sublist (List.take_sublist n _)
  · rw [htop]
    exact (pairwise_descTie_groups _).sublist (List.take_sublist n _)
  · intro p hpG hpnot q hq
    rw [htop] at hpnot hq
    have hPS : (sortAmtDesc Prod.snd
        (groupByCategory (topInput df category_type s e selected))).Pairwise
          (descTie Prod.snd Prod.fst) := pairwise_descTie_groups _
    have hsplit := (List.take_append_drop n (sortAmtDesc Prod.snd
      (groupByCategory (topInput df category_type s e selected)))).symm
    have hpS : p ∈ sortAmtDesc Prod.snd
        (groupByCategory (topInput df category_type s e selected)) :=
      hperm.mem_iff.mpr hpG
    rw [hsplit] at hPS hpS
    have hpd : p ∈ (sortAmtDesc Prod.snd
        (groupByCategory (topInput df category_type s e selected))).drop n := by
      rcases List.mem_append.mp hpS with h | h
      · exact absurd h hpnot
      · exact h
    exact (List.pairwise_append.mp hPS).2.2 q hq p hpd
  · intro hlen
    rw [htop, List.take_of_length_le (by rw [hperm.length_eq]; exact hlen)]
    exact hperm
  · simp [get_top_categories, topInput, groupByCategory, categoriesSorted, catSum,
      sumAmounts, sortAmtDesc, amtDescRel, inRange, scenarioRows, rowW1, rowW2,
      rowD1, janStart, janEnd, Date.le, List.insertionSort, List.orderedInsert,
      List.dedup_cons_of_mem, List.dedup_cons_of_not_mem, List.filterMap_cons]
    norm_num

/-- C2 witness: in the Scenario B instance only one distinct expense
category exists, which is at most 5, so the full aggregate comes back. -/
theorem get_top_categories_spec_witness :
    List.Perm (get_top_categories scenarioRows "Expenses" 5 janStart janEnd
        ["Food", "Salary"])
      (groupByCategory (topInput scenarioRows "Expenses" janStart janEnd
        ["Food", "Salary"])) :=
  (get_top_categories_spec scenarioRows "Expenses" 5 janStart janEnd
    ["Food", "Salary"]).2.2.2.2.2.2.1 (by decide)

/-- C4 witness: a two-category expense group (one zero amount, one null
amount) has zero total, and even at threshold one half nothing is kept. -/
theorem pie_zero_total_excludes_all_witness :
    pieKept [zeroRow, nanRow] ["Food", "Fees"] janStart janEnd (1 / 2) = [] :=
  pie_zero_total_excludes_all [zeroRow, nanRow] ["Food", "Fees"] janStart janEnd (1 / 2)
    (by
      simp [pieGrouped, pieRows, groupByCategory, categoriesSorted, catSum, sumAmounts,
        sortAmtDesc, amtDescRel, inRange, zeroRow, nanRow, janStart, janEnd, Date.le,
        List.insertionSort, List.orderedInsert, List.filterMap_cons,
        List.dedup_cons_of_mem, List.dedup_cons_of_not_mem])
